import Mathlib

/-!
Verification of the client-side aggregation and mutation layer of the
talent-showcase application (components `TalentShowcase`,
`AdminTalentShowcase`, `AdminUserManagement`, `AdminHostelServices`).

The record store (supabase) is modelled as in-memory collections; each
store query/write is embedded as a pure function over those collections.
Supabase calls resolve with a `\x7b data, error \x7d` value and do not throw:
write failures are therefore passed to each handler as an explicit
`writeError : Option String` argument carrying the error message.
-/

/-- A row of the `profiles` collection. -/
structure Profile where
  id : String
  full_name : String
  email : String
  role : String
  department : Option String
  year : Option String
deriving DecidableEq, Repr

/-- A row of the `talents` collection (the `*` selection used by both
fetches; `likes_count` is the denormalized reaction count column). -/
structure Talent where
  id : String
  user_id : String
  title : String
  description : String
  category : String
  media_url : String
  media_type : String
  tags : List String
  created_at : String
  likes_count : Nat
deriving DecidableEq, Repr

/-- A row of the `talent_likes` collection: composite (item, viewer) key. -/
structure LikeRow where
  talent_id : String
  user_id : String
deriving DecidableEq, Repr

/-- The record store state for the showcase views. -/
structure Store where
  talents : List Talent
  profiles : List Profile
  likes : List LikeRow
deriving DecidableEq, Repr

/-- Number of reaction rows for one item (all viewers). -/
def countLikes (likes : List LikeRow) (tid : String) : Nat :=
  (likes.filter (fun l => l.talent_id == tid)).length

/-- Modelled from the spec: the store's response to
`from('talents').select('*')`. The repository never writes `likes_count`;
per spec section 3 it is "maintained by the store's reaction bookkeeping"
(code absent from src/), so the store serves each talent row with
`likes_count` derived from the reaction collection. Row order is the
collection order (the `order(...)` clause is not load-bearing for any
claim and is not modelled). -/
def queryTalents (s : Store) : List Talent :=
  s.talents.map (fun t => { t with likes_count := countLikes s.likes t.id })

/-- `supabase.from('talent_likes').select('talent_id').eq('user_id', uid)`
followed by `likesData.map(like => like.talent_id)`. -/
def likedIdsOf (likes : List LikeRow) (uid : String) : List String :=
  (likes.filter (fun l => l.user_id == uid)).map (fun l => l.talent_id)

/-- Helper for `[...new Set(l)]`: keeps the first occurrence of each
element, in insertion order (JS `Set` iteration order). -/
def dedupAux (seen : List String) : List String → List String
  | [] => []
  | x :: xs => if seen.contains x then dedupAux seen xs else x :: dedupAux (x :: seen) xs

/-- `[...new Set(l)]`. -/
def dedupKeys (l : List String) : List String := dedupAux [] l

/-- `supabase.from('profiles').select('*').in('id', keys)`. -/
def queryProfilesIn (s : Store) (keys : List String) : List Profile :=
  s.profiles.filter (fun p => keys.contains p.id)

/-- `new Map(entries.map(p => [key(p), p])).get(k)`: a JS `Map` built from
an entry list keeps the LAST entry for a duplicated key; `.get` of an
absent key is `undefined`, and the code coerces it to `null` via
`|| null` / `?? null`, modelled as `none`. -/
def lastEntry {α : Type} (key : α → String) : List α → String → Option α
  | [], _ => none
  | p :: rest, k =>
    match lastEntry key rest k with
    | some q => some q
    | none => if key p == k then some p else none

/-- `is_liked` of the last-loaded view looked up again at the store:
`likedIds.has(tid)` for the viewer's reaction rows. -/
def storeLiked (likes : List LikeRow) (uid tid : String) : Bool :=
  (likedIdsOf likes uid).contains tid

/-- `TalentWithProfile` with the per-viewer flag: the talent row plus the
attached `profile` and `is_liked` fields. -/
structure AggTalent where
  base : Talent
  profile : Option Profile
  is_liked : Bool
deriving DecidableEq, Repr

/-- The profile-attachment map of `fetchTalents`:
`processedTalents.map(talent => (\x7b ...talent, profile: profilesMap.get(talent.user_id) || null \x7d))`. -/
def attachProfiles (profilesData : List Profile) (l : List AggTalent) : List AggTalent :=
  l.map (fun a => { a with profile := lastEntry (fun p => p.id) profilesData a.base.user_id })

/-- The personalization map of `fetchTalents`:
`processedTalents.map(talent => (\x7b ...talent, is_liked: likedIds.has(talent.id) \x7d))`. -/
def attachLikes (likedIds : List String) (l : List AggTalent) : List AggTalent :=
  l.map (fun a => { a with is_liked := likedIds.contains a.base.id })

/-- The observable outcome of one `fetchTalents` run: how many secondary
(profiles) queries were issued and with which key sets, how many reaction
queries were issued and scoped to which viewer, and the resulting list. -/
structure FetchTrace where
  profileQueries : Nat
  profileKeySets : List (List String)
  likeQueries : Nat
  likeViewer : Option String
  result : List AggTalent
deriving DecidableEq, Repr

/-- `fetchTalents` of `TalentShowcase` (success path): query the primary
collection, initialize `profile: null, is_liked: false`, attach profiles
via one batched `.in` query when the deduplicated key set is non-empty,
then attach the viewer's liked flags via one `.eq('user_id', uid)` query
when a viewer is present. -/
def fetchTalents (s : Store) (user : Option String) : FetchTrace :=
  let talentsData := queryTalents s
  let processed0 := talentsData.map (fun t => AggTalent.mk t none false)
  let userIds := dedupKeys (talentsData.map (fun t => t.user_id))
  let joined : List AggTalent × Nat × List (List String) :=
    if 0 < userIds.length then
      (attachProfiles (queryProfilesIn s userIds) processed0, 1, [userIds])
    else
      (processed0, 0, [])
  match user with
  | none => ⟨joined.2.1, joined.2.2, 0, none, joined.1⟩
  | some uid =>
    ⟨joined.2.1, joined.2.2, 1, some uid, attachLikes (likedIdsOf s.likes uid) joined.1⟩

/-- The `select('id, full_name, email')` projection of a profile row used
by `AdminTalentShowcase.fetchAllTalents`. -/
structure AdminProfile where
  id : String
  full_name : String
  email : String
deriving DecidableEq, Repr

/-- `supabase.from('profiles').select('id, full_name, email').in('id', keys)`. -/
def queryAdminProfilesIn (s : Store) (keys : List String) : List AdminProfile :=
  (s.profiles.filter (fun p => keys.contains p.id)).map
    (fun p => AdminProfile.mk p.id p.full_name p.email)

/-- The admin view model: talent row plus attached (projected) profile. -/
structure AdminAggTalent where
  base : Talent
  profile : Option AdminProfile
deriving DecidableEq, Repr

/-- Trace of one `fetchAllTalents` run of `AdminTalentShowcase`. -/
structure AdminFetchTrace where
  profileQueries : Nat
  profileKeySets : List (List String)
  result : List AdminAggTalent
deriving DecidableEq, Repr

/-- `fetchAllTalents` of `AdminTalentShowcase` (success path): empty
primary result short-circuits to an empty list before any secondary
query; an empty deduplicated key set short-circuits to null profiles
(unreachable in practice, kept as in the source); otherwise one batched
`.in` query and a map-lookup attachment. -/
def fetchAllTalents (s : Store) : AdminFetchTrace :=
  let talentsData := queryTalents s
  if talentsData.isEmpty then
    ⟨0, [], []⟩
  else
    let userIds := dedupKeys (talentsData.map (fun t => t.user_id))
    if userIds.length == 0 then
      ⟨0, [], talentsData.map (fun t => AdminAggTalent.mk t none)⟩
    else
      let profilesData := queryAdminProfilesIn s userIds
      ⟨1, [userIds],
        talentsData.map
          (fun t => AdminAggTalent.mk t (lastEntry (fun p => p.id) profilesData t.user_id))⟩

/-- Concrete rows used by closed witness and counterexample theorems. -/
def pAlice : Profile := ⟨"u1", "Alice", "alice@example.com", "user", none, none⟩

def pRoot : Profile := ⟨"u0", "Udhaya", "udhayas1309@gmail.com", "admin", none, none⟩

def tGuitar : Talent :=
  ⟨"t1", "u1", "Guitar solo", "An acoustic set", "Music", "url1", "image",
   ["guitar", "acoustic"], "2024-01-01", 0⟩

def tPlain : Talent :=
  ⟨"t2", "ghost", "Morning run", "Daily training log", "Sports", "url2", "image",
   [], "2024-01-02", 0⟩

def tSecond : Talent :=
  ⟨"t3", "u1", "Sketching", "Pencil work", "Art", "url3", "image",
   ["pencil"], "2024-01-03", 0⟩

/-- A store with a duplicated foreign key (`u1` twice), a dangling foreign
key (`ghost`) and one reaction row by viewer `u9` on `t1`. -/
def exStore : Store := ⟨[tGuitar, tPlain, tSecond], [pAlice], [⟨"t1", "u9"⟩]⟩

/-- The first element of `(fetchTalents exStore (some "u9")).result`. -/
def aGuitarViewed : AggTalent := ⟨{ tGuitar with likes_count := 1 }, some pAlice, true⟩

/-- `needle` is a prefix of `haystack`, by char comparison (the head step
of `String.prototype.includes` / `String.prototype.startsWith`). -/
def isPrefixList : List Char → List Char → Bool
  | [], _ => true
  | _ :: _, [] => false
  | a :: as, b :: bs => a == b && isPrefixList as bs

/-- `haystack.includes(needle)` over character lists. -/
def containsSub (needle : List Char) : List Char → Bool
  | [] => isPrefixList needle []
  | c :: rest => isPrefixList needle (c :: rest) || containsSub needle rest

/-- `s.toLowerCase()` as a character list (per-character lowering). -/
def lowerChars (s : String) : List Char := s.toList.map Char.toLower

/-- `hay.toLowerCase().includes(needle.toLowerCase())`. -/
def containsLower (hay needle : String) : Bool :=
  containsSub (lowerChars needle) (lowerChars hay)

/-- The predicate of the `talents.filter(...)` in `filteredTalents`:
title, description, or some tag contains the query, case-insensitively. -/
def talentMatches (q : String) (a : AggTalent) : Bool :=
  containsLower a.base.title q || containsLower a.base.description q
    || a.base.tags.any (fun tag => containsLower tag q)

/-- `filteredTalents`: the client-side search filter of `TalentShowcase`. -/
def filteredTalents (q : String) (talents : List AggTalent) : List AggTalent :=
  talents.filter (talentMatches q)

/-- Observable outcome of one `handleLike` run. `wroteDelete` /
`wroteInsert` record that the corresponding store call was ISSUED (it may
still fail); `store` is the store after the call. -/
structure LikeOutcome where
  wroteDelete : Bool
  wroteInsert : Bool
  refetched : Bool
  surfaced : Option String
  store : Store
  view : List AggTalent
deriving DecidableEq, Repr

/-- The store effect of the issued write: if the view said liked,
`delete().match(talent_id, user_id)` removes the rows carrying the
composite key; otherwise `insert(talent_id, user_id)` appends one row. -/
def likeWrite (s : Store) (uid tid : String) (liked : Bool) : Store :=
  if liked then
    { s with likes := s.likes.filter (fun l => !(l.talent_id == tid && l.user_id == uid)) }
  else
    { s with likes := s.likes ++ [⟨tid, uid⟩] }

/-- `handleLike` of `TalentShowcase`. A missing viewer alerts and returns
before any write; an item absent from the last-loaded `talents` state
returns silently. The delete/insert result is NOT destructured or checked
(unlike every other handler in the repository), so a write failure is
invisible here: nothing throws, the `catch` never fires, and
`fetchTalents()` runs unconditionally after the write. -/
def handleLike (s : Store) (view : List AggTalent) (user : Option String)
    (talentId : String) (writeError : Option String) : LikeOutcome :=
  match user with
  | none => ⟨false, false, false, some "You must be logged in to like a post.", s, view⟩
  | some uid =>
    match view.find? (fun t => t.base.id == talentId) with
    | none => ⟨false, false, false, none, s, view⟩
    | some talent =>
      let s' := if writeError.isSome then s else likeWrite s uid talentId talent.is_liked
      ⟨talent.is_liked, !talent.is_liked, true, none, s', (fetchTalents s' (some uid)).result⟩

/-- A row of the `hostel_services` collection (the fields of
`HostelServiceWithProfile` minus the joined profile, plus the
`updated_at` column written by `handleStatusChange`). -/
structure ServiceRow where
  id : String
  created_at : String
  service_type : String
  room_number : String
  hostel_block : String
  status : String
  priority : String
  description : String
  user_id : String
  updated_at : String
deriving DecidableEq, Repr

/-- Observable outcome of one `handleStatusChange` run. -/
structure StatusOutcome where
  writeAttempts : Nat
  refetched : Bool
  surfaced : Option String
  services : List ServiceRow
deriving DecidableEq, Repr

/-- `handleStatusChange` of `AdminHostelServices`: issues
`update(status, updated_at).eq('id', serviceId)` where `updated_at` is
`new Date().toISOString()` — the CLIENT clock reading, passed here as
`clientNow`. The error result is checked: on failure the handler throws
to its catch, alerts, and does not re-fetch. -/
def handleStatusChange (rows : List ServiceRow) (serviceId newStatus clientNow : String)
    (writeError : Option String) : StatusOutcome :=
  match writeError with
  | some _ => ⟨1, false, some "Failed to update status.", rows⟩
  | none =>
    ⟨1, true, none,
      rows.map (fun r =>
        if r.id == serviceId then { r with status := newStatus, updated_at := clientNow }
        else r)⟩

/-- Observable outcome of one `handleDelete` run. -/
structure DeleteOutcome where
  writeAttempts : Nat
  refetched : Bool
  surfaced : Option String
  talents : List Talent
deriving DecidableEq, Repr

/-- `handleDelete` of `AdminTalentShowcase`: the `window.confirm` answer
is the `confirmed` flag; without it nothing happens. The delete removes
the rows matching the id; on failure alert with the store message and do
not re-fetch. -/
def handleDelete (rows : List Talent) (talentId : String) (confirmed : Bool)
    (writeError : Option String) : DeleteOutcome :=
  if confirmed then
    match writeError with
    | some e => ⟨1, false, some ("Failed to delete talent: " ++ e), rows⟩
    | none => ⟨1, true, none, rows.filter (fun t => !(t.id == talentId))⟩
  else ⟨0, false, none, rows⟩

/-- A row of the `talent_comments` collection as inserted by
`handlePostComment` (id / created_at are store-generated). -/
structure CommentRow where
  content : String
  talent_id : String
  user_id : String
deriving DecidableEq, Repr

/-- Observable outcome of one `handlePostComment` run. -/
structure CommentOutcome where
  writeAttempts : Nat
  refetchedThread : Bool
  surfaced : Option String
  comments : List CommentRow
  draft : String
deriving DecidableEq, Repr

/-- JS whitespace test for `String.prototype.trim` (common cases). -/
def isWhitespaceChar (c : Char) : Bool :=
  c == ' ' || c == '\t' || c == '\n' || c == '\r'

/-- `s.trim()`. -/
def jsTrim (s : String) : String :=
  ⟨((s.toList.dropWhile isWhitespaceChar).reverse.dropWhile isWhitespaceChar).reverse⟩

/-- `handlePostComment` of `CommentsModal`: an empty/whitespace-only
draft or a missing viewer returns before any store call; the insert
carries the UNtrimmed draft; on failure alert and keep the draft; on
success clear the draft and re-fetch only this item's comment thread. -/
def handlePostComment (comments : List CommentRow) (user : Option String)
    (talentId draft : String) (writeError : Option String) : CommentOutcome :=
  if jsTrim draft = "" then ⟨0, false, none, comments, draft⟩
  else
    match user with
    | none => ⟨0, false, none, comments, draft⟩
    | some uid =>
      match writeError with
      | some _ => ⟨1, false, some "Failed to post comment.", comments, draft⟩
      | none => ⟨1, true, none, comments ++ [⟨draft, talentId, uid⟩], ""⟩

/-- The statically protected identity of `AdminUserManagement`: the role
select is rendered disabled exactly for the row whose email equals this
literal. -/
def protectedEmail : String := "udhayas1309@gmail.com"

/-- Observable outcome of one role-update attempt. `blocked` records
that the control was inert (disabled) and nothing ran. -/
structure RoleOutcome where
  writeAttempts : Nat
  blocked : Bool
  refetched : Bool
  surfaced : Option String
  profiles : List Profile
deriving DecidableEq, Repr

/-- `handleRoleChange` of `AdminUserManagement`: the raw store write,
with no guard of its own — `update(role).eq('id', userId)`; the error
result is checked: on failure alert with the message, on success
re-fetch the user list. -/
def handleRoleChange (ps : List Profile) (userId newRole : String)
    (writeError : Option String) : RoleOutcome :=
  match writeError with
  | some e => ⟨1, false, false, some ("Failed to update role: " ++ e), ps⟩
  | none =>
    ⟨1, false, true, none,
      ps.map (fun p => if p.id == userId then { p with role := newRole } else p)⟩

/-- The component-level role-update operation: the select control of a
row is disabled when the target's email equals the protected identity,
so no change event (and hence no `handleRoleChange` call) can fire for
that row — the refusal surfaces as an inert control, not a runtime
error. -/
def attemptRoleChange (ps : List Profile) (target : Profile) (newRole : String)
    (writeError : Option String) : RoleOutcome :=
  if target.email == protectedEmail then ⟨0, true, false, none, ps⟩
  else handleRoleChange ps target.id newRole writeError

/-- `fetchAllUsers`: re-query of the whole profiles collection (the
`order('created_at', descending)` clause is not load-bearing for any
claim and is not modelled). -/
def fetchAllUsers (ps : List Profile) : List Profile := ps

/-- A selected media file: name, byte size, MIME type string. -/
structure FileDesc where
  name : String
  size : Nat
  mime : String
deriving DecidableEq, Repr

/-- `s.startsWith(pre)`. -/
def strStartsWith (s pre : String) : Bool := isPrefixList pre.toList s.toList

/-- `handleFileChange` of `UploadTalentModal`, over the
(mediaFile, fileError) state pair: a file above the 10 MB ceiling only
sets the inline error and leaves the previously selected file in place;
an accepted file replaces the selection and clears the error. -/
def handleFileChange (st : Option FileDesc × String) (file : FileDesc) :
    Option FileDesc × String :=
  if file.size > 10 * 1024 * 1024 then
    (st.1, "File is too large. Please select a file smaller than 10MB.")
  else (some file, "")

/-- Store calls observed during one `handleSubmit` run. -/
structure SubmitTrace where
  uploads : Nat
  inserts : Nat
  insertedMediaType : Option String
  surfaced : Option String
deriving DecidableEq, Repr

/-- `mediaFile.type.startsWith('video') ? 'video' : 'image'`. -/
def mediaTypeOf (file : FileDesc) : String :=
  if strStartsWith file.mime "video" then "video" else "image"

/-- `handleSubmit` of `UploadTalentModal`: without a viewer or a selected
file, set the inline validation error and make no store call; otherwise
one storage upload, then (if the upload succeeded) one insert carrying
the derived media type; any store failure is alerted. -/
def handleSubmit (user : Option String) (mediaFile : Option FileDesc)
    (uploadError insertError : Option String) : SubmitTrace :=
  match user, mediaFile with
  | some _, some f =>
    match uploadError with
    | some e => ⟨1, 0, none, some ("Error uploading talent: " ++ e)⟩
    | none =>
      match insertError with
      | some e => ⟨1, 1, some (mediaTypeOf f), some ("Error uploading talent: " ++ e)⟩
      | none => ⟨1, 1, some (mediaTypeOf f), none⟩
  | _, _ => ⟨0, 0, none, some "Please select a media file to upload."⟩

/-- The spec's wording of the media-type rule, stated for comparison with
the implementation: MIME prefix `video/...` yields `video`, anything
else yields `image`. -/
def specMediaType (file : FileDesc) : String :=
  if strStartsWith file.mime "video/" then "video" else "image"

/-- The (is_liked, likes_count) pair displayed for one item of an
aggregated view (`find` by item id, as `handleLike` does). -/
def lookupView (v : List AggTalent) (tid : String) : Option (Bool × Nat) :=
  (v.find? (fun a => a.base.id == tid)).map (fun a => (a.is_liked, a.base.likes_count))

/-- Rows of the reaction collection carrying one composite key. -/
def likeKeyCount (likes : List LikeRow) (tid uid : String) : Nat :=
  (likes.filter (fun l => l.talent_id == tid && l.user_id == uid)).length

/-- The spec's uniqueness invariant: at most one ReactionRecord per
(item, viewer) pair. -/
def UniqueLikes (likes : List LikeRow) : Prop :=
  ∀ tid uid, likeKeyCount likes tid uid ≤ 1

/-- Concrete rows for the remaining witnesses and counterexamples. -/
def fVideoTape : FileDesc := ⟨"clip.vhs", 2 * 1024 * 1024, "videotape/x-vhs"⟩

def fBigVideo : FileDesc := ⟨"movie.mp4", 15 * 1024 * 1024, "video/mp4"⟩

def fSmallImage : FileDesc := ⟨"pic.png", 2 * 1024 * 1024, "image/png"⟩

def svcEx : ServiceRow :=
  ⟨"s1", "2024-01-01", "Cleaning", "101", "A", "Completed", "High",
   "weekly cleaning", "u1", "2024-01-01"⟩

theorem map_base_mk (l : List Talent) :
    (l.map (fun t => AggTalent.mk t none false)).map (fun a => a.base) = l := by
  induction l with
  | nil => rfl
  | cons t ts ih => simp [ih]

theorem attachProfiles_map_base (pd : List Profile) (l : List AggTalent) :
    (attachProfiles pd l).map (fun a => a.base) = l.map (fun a => a.base) := by
  simp [attachProfiles, List.map_map, Function.comp]

theorem attachLikes_map_base (ids : List String) (l : List AggTalent) :
    (attachLikes ids l).map (fun a => a.base) = l.map (fun a => a.base) := by
  simp [attachLikes, List.map_map, Function.comp]

/-- C10: every successful aggregation fetch returns a list whose length,
order and all non-attached fields coincide with the primary-collection
query result: projecting away the attached `profile` / `is_liked` fields
recovers the primary query result exactly. -/
theorem fetch_frames_primary (s : Store) (user : Option String) :
    (fetchTalents s user).result.map (fun a => a.base) = queryTalents s := by
  unfold fetchTalents
  cases user <;> simp only [] <;>
    split <;>
    simp [attachLikes_map_base, attachProfiles_map_base, map_base_mk, Function.comp_def]

theorem mem_dedupAux (x : String) :
    ∀ (l seen : List String), x ∈ dedupAux seen l ↔ (x ∈ l ∧ x ∉ seen) := by
  intro l
  induction l with
  | nil => intro seen; simp [dedupAux]
  | cons h t ih =>
    intro seen
    by_cases hc : seen.contains h = true
    · have hm : h ∈ seen := by simpa using hc
      simp only [dedupAux, hc, if_true, ih, List.mem_cons]
      constructor
      · rintro ⟨hx, hs⟩
        exact ⟨Or.inr hx, hs⟩
      · rintro ⟨rfl | hx, hs⟩
        · exact absurd hm hs
        · exact ⟨hx, hs⟩
    · have hm : h ∉ seen := by simpa using hc
      show x ∈ (if seen.contains h = true then dedupAux seen t else h :: dedupAux (h :: seen) t) ↔ _
      rw [if_neg hc]
      simp only [List.mem_cons, ih]
      constructor
      · rintro (rfl | ⟨hx, hs⟩)
        · exact ⟨Or.inl rfl, hm⟩
        · exact ⟨Or.inr hx, fun hxx => hs (Or.inr hxx)⟩
      · rintro ⟨rfl | hx, hs⟩
        · exact Or.inl rfl
        · by_cases hxh : x = h
          · exact Or.inl hxh
          · exact Or.inr ⟨hx, fun hmem => hmem.elim hxh hs⟩

theorem mem_dedupKeys (x : String) (l : List String) :
    x ∈ dedupKeys l ↔ x ∈ l := by
  simp [dedupKeys, mem_dedupAux]

theorem nodup_dedupAux : ∀ (l seen : List String), (dedupAux seen l).Nodup := by
  intro l
  induction l with
  | nil => intro seen; simp [dedupAux]
  | cons h t ih =>
    intro seen
    by_cases hc : seen.contains h = true
    · simpa only [dedupAux, hc, if_true] using ih seen
    · simp only [dedupAux, hc, if_false]
      refine List.nodup_cons.mpr ⟨?_, ih _⟩
      intro hmem
      rcases (mem_dedupAux h t (h :: seen)).mp hmem with ⟨_, hs⟩
      exact hs (List.mem_cons_self _ _)

theorem nodup_dedupKeys (l : List String) : (dedupKeys l).Nodup :=
  nodup_dedupAux l []

theorem dedupKeys_eq_nil_iff (l : List String) : dedupKeys l = [] ↔ l = [] := by
  cases l with
  | nil => simp [dedupKeys, dedupAux]
  | cons h t => simp [dedupKeys, dedupAux]

theorem storeLiked_iff (likes : List LikeRow) (uid tid : String) :
    storeLiked likes uid tid = true ↔ ∃ l ∈ likes, l.user_id = uid ∧ l.talent_id = tid := by
  simp [storeLiked, likedIdsOf, List.mem_filter]
  aesop

theorem lastEntry_eq_none {α : Type} (key : α → String) (l : List α) (k : String)
    (h : ∀ p ∈ l, key p ≠ k) : lastEntry key l k = none := by
  induction l with
  | nil => rfl
  | cons p rest ih =>
    have hr := ih (fun q hq => h q (List.mem_cons_of_mem _ hq))
    show (match lastEntry key rest k with
          | some q => some q
          | none => if key p == k then some p else none) = none
    rw [hr]
    simp [h p (List.mem_cons_self _ _)]

theorem fetchTalents_result (s : Store) (user : Option String) :
    (fetchTalents s user).result
      = (queryTalents s).map (fun t =>
          AggTalent.mk t
            (if 0 < (dedupKeys ((queryTalents s).map (fun r => r.user_id))).length then
               lastEntry (fun p => p.id)
                 (queryProfilesIn s (dedupKeys ((queryTalents s).map (fun r => r.user_id))))
                 t.user_id
             else none)
            (match user with
             | none => false
             | some uid => (likedIdsOf s.likes uid).contains t.id)) := by
  unfold fetchTalents
  cases user <;> dsimp only <;> split <;> rename_i h <;>
    simp [attachLikes, attachProfiles, List.map_map, h, Function.comp_def]

theorem fetchTalents_profileQueries (s : Store) (user : Option String) :
    (fetchTalents s user).profileQueries
      = if 0 < (dedupKeys ((queryTalents s).map (fun r => r.user_id))).length then 1 else 0 := by
  unfold fetchTalents
  cases user <;> dsimp only <;> split <;> rename_i h <;> simp [h]

theorem fetchTalents_profileKeySets (s : Store) (user : Option String) :
    (fetchTalents s user).profileKeySets
      = if 0 < (dedupKeys ((queryTalents s).map (fun r => r.user_id))).length then
          [dedupKeys ((queryTalents s).map (fun r => r.user_id))]
        else [] := by
  unfold fetchTalents
  cases user <;> dsimp only <;> split <;> rename_i h <;> simp [h]

theorem fetchTalents_likeQueries (s : Store) (user : Option String) :
    (fetchTalents s user).likeQueries = match user with | none => 0 | some _ => 1 := by
  unfold fetchTalents
  cases user <;> rfl

theorem fetchTalents_likeViewer (s : Store) (user : Option String) :
    (fetchTalents s user).likeViewer = user := by
  unfold fetchTalents
  cases user <;> rfl

theorem queryProfilesIn_subset {s : Store} {keys : List String} {p : Profile}
    (h : p ∈ queryProfilesIn s keys) : p ∈ s.profiles :=
  (List.mem_filter.mp h).1

theorem queryAdminProfilesIn_id {s : Store} {keys : List String} {q : AdminProfile}
    (h : q ∈ queryAdminProfilesIn s keys) : ∃ p ∈ s.profiles, q.id = p.id := by
  rcases List.mem_map.mp h with ⟨p, hp, rfl⟩
  exact ⟨p, (List.mem_filter.mp hp).1, rfl⟩

theorem fetchAllTalents_empty (s : Store) (h : queryTalents s = []) :
    fetchAllTalents s = ⟨0, [], []⟩ := by
  unfold fetchAllTalents
  simp [h]

theorem fetchAllTalents_nonempty (s : Store) (h : queryTalents s ≠ []) :
    fetchAllTalents s
      = ⟨1, [dedupKeys ((queryTalents s).map (fun t => t.user_id))],
         (queryTalents s).map (fun t =>
           AdminAggTalent.mk t
             (lastEntry (fun p => p.id)
               (queryAdminProfilesIn s (dedupKeys ((queryTalents s).map (fun t => t.user_id))))
               t.user_id))⟩ := by
  unfold fetchAllTalents
  have hk : dedupKeys ((queryTalents s).map (fun t => t.user_id)) ≠ [] := by
    rw [Ne, dedupKeys_eq_nil_iff, List.map_eq_nil_iff]
    exact h
  have hne : (queryTalents s).isEmpty = false := by
    simp [List.isEmpty_iff, h]
  simp [hne, hk, List.length_eq_zero]

/-- C5: the Join Resolver of both fetches extracts the deduplicated set of
distinct foreign-key values; an empty key set issues no secondary query
and leaves every profile null; a non-empty key set issues exactly one
batched query over that deduplicated set, and every primary record whose
foreign key matches no profile row receives a null profile. -/
theorem join_resolver_contract (s : Store) (user : Option String) :
    ((dedupKeys ((queryTalents s).map (fun r => r.user_id))).Nodup
      ∧ ∀ x, x ∈ dedupKeys ((queryTalents s).map (fun r => r.user_id))
          ↔ x ∈ (queryTalents s).map (fun r => r.user_id))
    ∧ (dedupKeys ((queryTalents s).map (fun r => r.user_id)) = [] →
        (fetchTalents s user).profileQueries = 0
        ∧ (fetchAllTalents s).profileQueries = 0
        ∧ (∀ a ∈ (fetchTalents s user).result, a.profile = none)
        ∧ (∀ a ∈ (fetchAllTalents s).result, a.profile = none))
    ∧ (dedupKeys ((queryTalents s).map (fun r => r.user_id)) ≠ [] →
        (fetchTalents s user).profileQueries = 1
        ∧ (fetchTalents s user).profileKeySets
            = [dedupKeys ((queryTalents s).map (fun r => r.user_id))]
        ∧ (fetchAllTalents s).profileQueries = 1
        ∧ (fetchAllTalents s).profileKeySets
            = [dedupKeys ((queryTalents s).map (fun r => r.user_id))])
    ∧ (∀ a ∈ (fetchTalents s user).result,
        (∀ p ∈ s.profiles, p.id ≠ a.base.user_id) → a.profile = none)
    ∧ (∀ a ∈ (fetchAllTalents s).result,
        (∀ p ∈ s.profiles, p.id ≠ a.base.user_id) → a.profile = none) := by
  refine ⟨⟨nodup_dedupKeys _, fun x => mem_dedupKeys x _⟩, ?_, ?_, ?_, ?_⟩
  · intro h
    have hq : queryTalents s = [] := by
      rwa [dedupKeys_eq_nil_iff, List.map_eq_nil_iff] at h
    rw [fetchAllTalents_empty s hq, fetchTalents_profileQueries, fetchTalents_result, hq]
    simp [dedupKeys, dedupAux]
  · intro h
    have hq : queryTalents s ≠ [] := by
      intro e
      exact h (by simp [e, dedupKeys, dedupAux])
    have hlen : 0 < (dedupKeys ((queryTalents s).map (fun r => r.user_id))).length :=
      List.length_pos.mpr h
    rw [fetchAllTalents_nonempty s hq, fetchTalents_profileQueries,
      fetchTalents_profileKeySets]
    simp [hlen]
  · intro a ha hnone
    rw [fetchTalents_result] at ha
    rcases List.mem_map.mp ha with ⟨t, _, rfl⟩
    dsimp only
    split
    · exact lastEntry_eq_none _ _ _
        (fun p hp => hnone p (queryProfilesIn_subset hp))
    · rfl
  · intro a ha hnone
    by_cases hq : queryTalents s = []
    · rw [fetchAllTalents_empty s hq] at ha
      exact absurd ha (List.not_mem_nil a)
    · rw [fetchAllTalents_nonempty s hq] at ha
      rcases List.mem_map.mp ha with ⟨t, _, rfl⟩
      dsimp only
      refine lastEntry_eq_none _ _ _ (fun q hq' => ?_)
      rcases queryAdminProfilesIn_id hq' with ⟨p, hp, hid⟩
      rw [hid]
      exact hnone p hp

/-- C5 witness: on a concrete store with the duplicated foreign key `u1`
and the dangling key `ghost`, exactly one batched profile query is issued
with the deduplicated key set, and the dangling record gets a null
profile. -/
theorem join_resolver_contract_witness :
    (fetchTalents exStore none).profileQueries = 1
    ∧ (fetchTalents exStore none).profileKeySets = [["u1", "ghost"]]
    ∧ (fetchAllTalents exStore).profileQueries = 1 := by
  have h := (join_resolver_contract exStore none).2.2.1 (by decide)
  refine ⟨h.1, ?_, h.2.2.1⟩
  rw [h.2.1]
  decide

/-- C6: with no authenticated viewer every record's `is_liked` flag is
false and no reaction query is issued; with a viewer exactly one query
scoped to that viewer is issued and each record's flag equals membership
of the record's id in the viewer's liked-item set. -/
theorem personalization_contract (s : Store) :
    ((fetchTalents s none).likeQueries = 0
      ∧ ∀ a ∈ (fetchTalents s none).result, a.is_liked = false)
    ∧ ∀ uid : String,
        (fetchTalents s (some uid)).likeQueries = 1
        ∧ (fetchTalents s (some uid)).likeViewer = some uid
        ∧ ∀ a ∈ (fetchTalents s (some uid)).result,
            (a.is_liked = true
              ↔ ∃ l ∈ s.likes, l.user_id = uid ∧ l.talent_id = a.base.id) := by
  refine ⟨⟨by rw [fetchTalents_likeQueries], ?_⟩, fun uid => ⟨?_, ?_, ?_⟩⟩
  · intro a ha
    rw [fetchTalents_result] at ha
    rcases List.mem_map.mp ha with ⟨t, _, rfl⟩
    rfl
  · rw [fetchTalents_likeQueries]
  · rw [fetchTalents_likeViewer]
  · intro a ha
    rw [fetchTalents_result] at ha
    rcases List.mem_map.mp ha with ⟨t, _, rfl⟩
    exact storeLiked_iff s.likes uid t.id

/-- C6 witness: on the concrete store, viewer `u9` gets `is_liked = true`
for the item they reacted to, via exactly one viewer-scoped query. -/
theorem personalization_contract_witness :
    aGuitarViewed ∈ (fetchTalents exStore (some "u9")).result
    ∧ aGuitarViewed.is_liked = true
    ∧ (fetchTalents exStore (some "u9")).likeQueries = 1 := by
  refine ⟨by decide, ?_, ((personalization_contract exStore).2 "u9").1⟩
  exact (((personalization_contract exStore).2 "u9").2.2 aGuitarViewed (by decide)).mpr
    ⟨⟨"t1", "u9"⟩, by decide, rfl, by decide⟩

theorem isPrefixList_iff (n : List Char) :
    ∀ h : List Char, isPrefixList n h = true ↔ ∃ rest, h = n ++ rest := by
  induction n with
  | nil => intro h; simp [isPrefixList]
  | cons a as ih =>
    intro h
    cases h with
    | nil =>
      simp [isPrefixList]
    | cons b bs =>
      simp only [isPrefixList, Bool.and_eq_true, beq_iff_eq, ih, List.cons_append,
        List.cons.injEq]
      constructor
      · rintro ⟨rfl, rest, rfl⟩
        exact ⟨rest, rfl, rfl⟩
      · rintro ⟨rest, rfl, rfl⟩
        exact ⟨rfl, rest, rfl⟩

theorem containsSub_iff (n : List Char) :
    ∀ h : List Char, containsSub n h = true ↔ ∃ pre post, h = pre ++ n ++ post := by
  intro h
  induction h with
  | nil =>
    cases n with
    | nil =>
      simp only [containsSub, isPrefixList]
      exact ⟨fun _ => ⟨[], [], rfl⟩, fun _ => trivial⟩
    | cons c cs =>
      simp only [containsSub, isPrefixList]
      constructor
      · intro hfalse
        exact absurd hfalse (by simp)
      · rintro ⟨pre, post, hp⟩
        exact absurd hp.symm (by simp)
  | cons c rest ih =>
    simp only [containsSub, Bool.or_eq_true, isPrefixList_iff, ih]
    constructor
    · rintro (⟨r, hr⟩ | ⟨pre, post, hp⟩)
      · exact ⟨[], r, by simpa using hr⟩
      · exact ⟨c :: pre, post, by simp [hp]⟩
    · rintro ⟨pre, post, hp⟩
      cases pre with
      | nil =>
        exact Or.inl ⟨post, by simpa using hp⟩
      | cons x xs =>
        simp only [List.cons_append, List.cons.injEq] at hp
        exact Or.inr ⟨xs, post, hp.2⟩

theorem containsSub_nil (h : List Char) : containsSub [] h = true := by
  cases h <;> simp [containsSub, isPrefixList]

/-- C7: the client-side filter keeps exactly the records whose title,
description, or some tag contains the filter text as a case-insensitive
substring; the empty filter text is the identity (the full list, not an
empty result). -/
theorem search_filter_contract :
    (∀ (q : String) (l : List AggTalent) (a : AggTalent),
      a ∈ filteredTalents q l
        ↔ a ∈ l
          ∧ ((∃ pre post, lowerChars a.base.title = pre ++ lowerChars q ++ post)
             ∨ (∃ pre post, lowerChars a.base.description = pre ++ lowerChars q ++ post)
             ∨ (∃ tag ∈ a.base.tags, ∃ pre post, lowerChars tag = pre ++ lowerChars q ++ post)))
    ∧ (∀ l : List AggTalent, filteredTalents "" l = l) := by
  constructor
  · intro q l a
    rw [filteredTalents, List.mem_filter]
    refine and_congr_right (fun _ => ?_)
    simp only [talentMatches, containsLower, Bool.or_eq_true, containsSub_iff,
      List.any_eq_true, or_assoc]
  · intro l
    refine List.filter_eq_self.mpr (fun a _ => ?_)
    simp [talentMatches, containsLower, lowerChars, containsSub_nil]

/-- C1: a role update targeting the statically protected identity is
rejected as a no-op (an inert control, the ForbiddenTransition surface)
with the stored roles unchanged; any other target's role update issues
the write and the new role is reflected after the re-fetch. -/
theorem role_update_protected_guard (ps : List Profile) (target : Profile) (newRole : String) :
    (target.email = protectedEmail →
      ∀ we : Option String,
        (attemptRoleChange ps target newRole we).blocked = true
        ∧ (attemptRoleChange ps target newRole we).writeAttempts = 0
        ∧ (attemptRoleChange ps target newRole we).profiles = ps)
    ∧ (target.email ≠ protectedEmail →
      (attemptRoleChange ps target newRole none).writeAttempts = 1
      ∧ (attemptRoleChange ps target newRole none).blocked = false
      ∧ (attemptRoleChange ps target newRole none).refetched = true
      ∧ ∀ p ∈ fetchAllUsers (attemptRoleChange ps target newRole none).profiles,
          p.id = target.id → p.role = newRole) := by
  constructor
  · intro h we
    simp [attemptRoleChange, h]
  · intro h
    have hbe : (target.email == protectedEmail) = false := by
      simpa using h
    simp only [attemptRoleChange, hbe, Bool.false_eq_true, if_false, handleRoleChange]
    refine ⟨trivial, trivial, trivial, ?_⟩
    intro p hp hid
    simp only [fetchAllUsers] at hp
    rcases List.mem_map.mp hp with ⟨q, _, rfl⟩
    by_cases hq : (q.id == target.id) = true
    · simp [hq]
    · simp only [hq, Bool.false_eq_true, if_false] at hid ⊢
      exact absurd hid (by simpa using hq)

/-- C1 witness: the protected identity's row is inert and the store is
unchanged; another profile's role update issues the write. -/
theorem role_update_protected_guard_witness :
    (attemptRoleChange [pRoot, pAlice] pRoot "user" none).blocked = true
    ∧ (attemptRoleChange [pRoot, pAlice] pRoot "user" none).profiles = [pRoot, pAlice]
    ∧ (attemptRoleChange [pRoot, pAlice] pAlice "admin" none).writeAttempts = 1 := by
  have h1 := (role_update_protected_guard [pRoot, pAlice] pRoot "user").1 (by decide) none
  have h2 := (role_update_protected_guard [pRoot, pAlice] pAlice "admin").2 (by decide)
  exact ⟨h1.1, h1.2.2, h2.1⟩

theorem fetch_likes_count (s : Store) (u : Option String) :
    ∀ a ∈ (fetchTalents s u).result, a.base.likes_count = countLikes s.likes a.base.id := by
  intro a ha
  rw [fetchTalents_result] at ha
  rcases List.mem_map.mp ha with ⟨t, ht, rfl⟩
  simp only [queryTalents] at ht
  rcases List.mem_map.mp ht with ⟨t0, _, rfl⟩
  rfl

theorem handleLike_found (s : Store) (view : List AggTalent) (uid tid : String)
    (t : AggTalent) (hfind : view.find? (fun a => a.base.id == tid) = some t) :
    handleLike s view (some uid) tid none
      = ⟨t.is_liked, !t.is_liked, true, none, likeWrite s uid tid t.is_liked,
         (fetchTalents (likeWrite s uid tid t.is_liked) (some uid)).result⟩ := by
  simp [handleLike, hfind]

/-- C3: `handleLike` with no viewer surfaces the auth prompt and performs
no store write; with a viewer and the item found in the last-loaded view,
it deletes the composite-key rows when the view said liked, inserts one
row when it did not, always triggers the full re-fetch whose result
replaces the view, and every displayed `likes_count` is store-derived
(never a local increment). -/
theorem toggle_reaction_contract (s : Store) (view : List AggTalent) (tid : String) :
    (∀ we : Option String,
      (handleLike s view none tid we).surfaced = some "You must be logged in to like a post."
      ∧ (handleLike s view none tid we).wroteDelete = false
      ∧ (handleLike s view none tid we).wroteInsert = false
      ∧ (handleLike s view none tid we).refetched = false
      ∧ (handleLike s view none tid we).store = s)
    ∧ ∀ (uid : String) (t : AggTalent), view.find? (fun a => a.base.id == tid) = some t →
        (t.is_liked = true →
          (handleLike s view (some uid) tid none).wroteDelete = true
          ∧ (handleLike s view (some uid) tid none).store.likes
              = s.likes.filter (fun l => !(l.talent_id == tid && l.user_id == uid)))
        ∧ (t.is_liked = false →
          (handleLike s view (some uid) tid none).wroteInsert = true
          ∧ (handleLike s view (some uid) tid none).store.likes = s.likes ++ [⟨tid, uid⟩])
        ∧ (handleLike s view (some uid) tid none).refetched = true
        ∧ (handleLike s view (some uid) tid none).view
            = (fetchTalents (handleLike s view (some uid) tid none).store (some uid)).result
        ∧ ∀ a ∈ (handleLike s view (some uid) tid none).view,
            a.base.likes_count
              = countLikes (handleLike s view (some uid) tid none).store.likes a.base.id := by
  constructor
  · intro we
    exact ⟨rfl, rfl, rfl, rfl, rfl⟩
  · intro uid t hfind
    rw [handleLike_found s view uid tid t hfind]
    refine ⟨?_, ?_, rfl, rfl, ?_⟩
    · intro hl
      rw [hl]
      exact ⟨rfl, rfl⟩
    · intro hl
      rw [hl]
      exact ⟨rfl, rfl⟩
    · exact fetch_likes_count _ _

/-- C3 witness: on the concrete store, the logged-out attempt surfaces
the auth prompt; viewer `u9`, whose view shows `t1` liked, issues the
delete and the composite-key row is gone. -/
theorem toggle_reaction_contract_witness :
    (handleLike exStore [aGuitarViewed] none "t1" none).surfaced
        = some "You must be logged in to like a post."
    ∧ (handleLike exStore [aGuitarViewed] (some "u9") "t1" none).wroteDelete = true
    ∧ (handleLike exStore [aGuitarViewed] (some "u9") "t1" none).store.likes = [] := by
  have h := toggle_reaction_contract exStore [aGuitarViewed] "t1"
  have h2 := (h.2 "u9" aGuitarViewed (by decide)).1 (by decide)
  refine ⟨(h.1 none).1, h2.1, ?_⟩
  rw [h2.2]
  decide

/-- C2 counterexample: a failed like-toggle write still triggers the
re-fetch and surfaces nothing — `handleLike` never inspects the write
result, so the claim's "no re-fetch, failure surfaced" fails there. -/
theorem mutation_failure_claim_counterexample :
    (handleLike exStore [aGuitarViewed] (some "u9") "t1" (some "network down")).refetched = true
    ∧ (handleLike exStore [aGuitarViewed] (some "u9") "t1" (some "network down")).surfaced
        = none := by
  exact ⟨rfl, rfl⟩

/-- C2 (amended): status update, delete and comment post abandon the
operation on a failed store write — store state untouched, no re-fetch,
a descriptive failure surfaced, a single write attempt (no retry). The
like toggle issues at most the one write but never inspects its result:
on failure it surfaces nothing and still re-fetches, replacing the view
with a fresh derivation of the UNCHANGED store (so the display stays
consistent), or leaving the view untouched when the item is absent. -/
theorem mutation_failure_policy :
    (∀ (rows : List ServiceRow) (id st now e : String),
      (handleStatusChange rows id st now (some e)).refetched = false
      ∧ (handleStatusChange rows id st now (some e)).surfaced = some "Failed to update status."
      ∧ (handleStatusChange rows id st now (some e)).services = rows
      ∧ (handleStatusChange rows id st now (some e)).writeAttempts = 1)
    ∧ (∀ (rows : List Talent) (tid e : String),
      (handleDelete rows tid true (some e)).refetched = false
      ∧ (handleDelete rows tid true (some e)).surfaced = some ("Failed to delete talent: " ++ e)
      ∧ (handleDelete rows tid true (some e)).talents = rows
      ∧ (handleDelete rows tid true (some e)).writeAttempts = 1)
    ∧ (∀ (cs : List CommentRow) (u tid draft e : String),
      (handlePostComment cs (some u) tid draft (some e)).refetchedThread = false
      ∧ (handlePostComment cs (some u) tid draft (some e)).comments = cs
      ∧ (handlePostComment cs (some u) tid draft (some e)).writeAttempts ≤ 1
      ∧ (jsTrim draft ≠ "" →
          (handlePostComment cs (some u) tid draft (some e)).surfaced
            = some "Failed to post comment."))
    ∧ (∀ (s : Store) (v : List AggTalent) (u tid e : String),
      (handleLike s v (some u) tid (some e)).store = s
      ∧ (handleLike s v (some u) tid (some e)).surfaced = none
      ∧ ((handleLike s v (some u) tid (some e)).view = v
         ∨ (handleLike s v (some u) tid (some e)).view = (fetchTalents s (some u)).result)) := by
  refine ⟨fun rows id st now e => ⟨rfl, rfl, rfl, rfl⟩,
    fun rows tid e => ⟨rfl, rfl, rfl, rfl⟩,
    fun cs u tid draft e => ?_, fun s v u tid e => ?_⟩
  · by_cases h : jsTrim draft = ""
    · rw [handlePostComment, if_pos h]
      exact ⟨rfl, rfl, by simp, fun hne => absurd h hne⟩
    · rw [handlePostComment, if_neg h]
      exact ⟨rfl, rfl, by simp, fun _ => rfl⟩
  · cases hf : v.find? (fun a => a.base.id == tid) with
    | none => simp [handleLike, hf]
    | some t => simp [handleLike, hf]

/-- C2 witness: concrete failed writes — the status update is abandoned
with no re-fetch, and the comment post surfaces its failure message. -/
theorem mutation_failure_policy_witness :
    (handleStatusChange [svcEx] "s1" "Pending" "2025-01-01" (some "boom")).refetched = false
    ∧ (handlePostComment [] (some "u1") "t1" "hi" (some "boom")).surfaced
        = some "Failed to post comment." := by
  exact ⟨(mutation_failure_policy.1 [svcEx] "s1" "Pending" "2025-01-01" "boom").1,
    (mutation_failure_policy.2.2.1 [] "u1" "t1" "hi" "boom").2.2.2 (by decide)⟩

/-- C8 counterexample: the code derives the media type with
`startsWith('video')`, not `startsWith('video/')`: a 2 MB file whose
MIME type is `videotape/x-vhs` is inserted as `video`, where the claim's
rule (`video/...` else `image`) demands `image`. -/
theorem upload_media_type_counterexample :
    (handleSubmit (some "u1") (some fVideoTape) none none).insertedMediaType = some "video"
    ∧ specMediaType fVideoTape = "image" := by
  exact ⟨by decide, by decide⟩

/-- C8 (amended): an oversized file is rejected locally (inline error,
no selection, hence no store call on submit); a file within the limit is
selected and its submit issues exactly one upload and one insert, with
`media_type = "video"` exactly when the MIME type string starts with
`"video"` (the code's check — not `"video/"`), else `"image"`. -/
theorem upload_contract (f : FileDesc) (uid : String) :
    (f.size > 10 * 1024 * 1024 →
      handleFileChange (none, "") f
        = (none, "File is too large. Please select a file smaller than 10MB.")
      ∧ (handleSubmit (some uid) (handleFileChange (none, "") f).1 none none).uploads = 0
      ∧ (handleSubmit (some uid) (handleFileChange (none, "") f).1 none none).inserts = 0
      ∧ (handleSubmit (some uid) (handleFileChange (none, "") f).1 none none).surfaced
          = some "Please select a media file to upload.")
    ∧ (¬ f.size > 10 * 1024 * 1024 →
      handleFileChange (none, "") f = (some f, "")
      ∧ (handleSubmit (some uid) (some f) none none).uploads = 1
      ∧ (handleSubmit (some uid) (some f) none none).inserts = 1
      ∧ ((handleSubmit (some uid) (some f) none none).insertedMediaType = some "video"
          ↔ strStartsWith f.mime "video" = true)
      ∧ ((handleSubmit (some uid) (some f) none none).insertedMediaType = some "image"
          ↔ strStartsWith f.mime "video" = false)) := by
  constructor
  · intro h
    have hfc : handleFileChange (none, "") f
        = (none, "File is too large. Please select a file smaller than 10MB.") := by
      simp [handleFileChange, h]
    rw [hfc]
    exact ⟨rfl, rfl, rfl, rfl⟩
  · intro h
    have hfc : handleFileChange (none, "") f = (some f, "") := by
      simp [handleFileChange, h]
    refine ⟨hfc, rfl, rfl, ?_, ?_⟩ <;>
      · cases hv : strStartsWith f.mime "video" <;>
          simp [handleSubmit, mediaTypeOf, hv]

/-- C8 witness: the 15 MB file never reaches the store (zero calls); the
2 MB image file yields one upload, one insert, media type `image`. -/
theorem upload_contract_witness :
    (handleSubmit (some "u1") (handleFileChange (none, "") fBigVideo).1 none none).uploads = 0
    ∧ (handleSubmit (some "u1") (some fSmallImage) none none).uploads = 1
    ∧ (handleSubmit (some "u1") (some fSmallImage) none none).inserts = 1
    ∧ (handleSubmit (some "u1") (some fSmallImage) none none).insertedMediaType
        = some "image" := by
  have h1 := (upload_contract fBigVideo "u1").1 (by decide)
  have h2 := (upload_contract fSmallImage "u1").2 (by decide)
  exact ⟨h1.2.1, h2.2.1, h2.2.2.1, h2.2.2.2.2.mpr (by decide)⟩

/-- C9 counterexample: the written `updated_at` is the client clock
reading (`new Date().toISOString()` runs in the browser): two runs
differing only in the client clock store different timestamps, so the
timestamp is client-generated, not server-side. -/
theorem status_timestamp_counterexample :
    (handleStatusChange [svcEx] "s1" "Pending" "2025-01-01T00:00:00Z" none).services
      ≠ (handleStatusChange [svcEx] "s1" "Pending" "2099-01-01T00:00:00Z" none).services := by
  decide

/-- C9 (amended): `updateStatus` writes `status = newStatus` together
with the client-generated timestamp and re-fetches on success; no
monotonic progression is enforced — the write carries no precondition on
the prior status, so any of the three statuses is settable in any order,
including regressions such as Completed to Pending. -/
theorem update_status_contract (rows : List ServiceRow) (serviceId newStatus clientNow : String) :
    (handleStatusChange rows serviceId newStatus clientNow none).refetched = true
    ∧ (handleStatusChange rows serviceId newStatus clientNow none).surfaced = none
    ∧ (handleStatusChange rows serviceId newStatus clientNow none).services.length = rows.length
    ∧ (∀ r ∈ (handleStatusChange rows serviceId newStatus clientNow none).services,
        r.id = serviceId → r.status = newStatus ∧ r.updated_at = clientNow)
    ∧ (∀ r ∈ rows, r.id ≠ serviceId →
        r ∈ (handleStatusChange rows serviceId newStatus clientNow none).services) := by
  refine ⟨rfl, rfl, by simp [handleStatusChange], ?_, ?_⟩
  · intro r hr hid
    simp only [handleStatusChange] at hr
    rcases List.mem_map.mp hr with ⟨r0, _, rfl⟩
    by_cases h0 : (r0.id == serviceId) = true
    · simp [h0]
    · simp only [h0, Bool.false_eq_true, if_false] at hid ⊢
      exact absurd hid (by simpa using h0)
  · intro r hr hid
    simp only [handleStatusChange]
    have hbe : (r.id == serviceId) = false := by simpa using hid
    refine List.mem_map.mpr ⟨r, hr, ?_⟩
    simp [hbe]

/-- C9 witness: a Completed request is directly set back to Pending with
the client timestamp, and the list is re-fetched. -/
theorem update_status_contract_witness :
    (handleStatusChange [svcEx] "s1" "Pending" "2025-06-01" none).refetched = true
    ∧ ({ svcEx with status := "Pending", updated_at := "2025-06-01" } : ServiceRow).status
        = "Pending" := by
  have h := update_status_contract [svcEx] "s1" "Pending" "2025-06-01"
  exact ⟨h.1,
    (h.2.2.2.1 { svcEx with status := "Pending", updated_at := "2025-06-01" }
      (by decide) (by decide)).1⟩

theorem find?_map_local {α β : Type} (f : α → β) (p : β → Bool) (l : List α) :
    (l.map f).find? p = (l.find? (fun a => p (f a))).map f := by
  induction l with
  | nil => rfl
  | cons a as ih =>
    simp only [List.map_cons, List.find?]
    cases h : p (f a) with
    | true => rfl
    | false => exact ih

theorem fetch_find (s : Store) (uid tid : String) :
    (fetchTalents s (some uid)).result.find? (fun a => a.base.id == tid)
      = (s.talents.find? (fun t => t.id == tid)).map (fun t =>
          AggTalent.mk { t with likes_count := countLikes s.likes t.id }
            (if 0 < (dedupKeys ((queryTalents s).map (fun r => r.user_id))).length then
               lastEntry (fun p => p.id)
                 (queryProfilesIn s (dedupKeys ((queryTalents s).map (fun r => r.user_id))))
                 t.user_id
             else none)
            ((likedIdsOf s.likes uid).contains t.id)) := by
  rw [fetchTalents_result, find?_map_local]
  conv_lhs =>
    rw [show queryTalents s
        = s.talents.map (fun t => { t with likes_count := countLikes s.likes t.id }) from rfl]
    rw [find?_map_local]
  rw [Option.map_map]
  rfl

theorem lookupView_fetch (s : Store) (uid tid : String) :
    lookupView (fetchTalents s (some uid)).result tid
      = (s.talents.find? (fun t => t.id == tid)).map
          (fun t => ((likedIdsOf s.likes uid).contains t.id, countLikes s.likes t.id)) := by
  rw [lookupView, fetch_find]
  cases s.talents.find? (fun t => t.id == tid) <;> rfl

theorem likeWrite_talents (s : Store) (uid tid : String) (b : Bool) :
    (likeWrite s uid tid b).talents = s.talents := by
  cases b <;> rfl

theorem likeWrite_likes (s : Store) (uid tid : String) (b : Bool) :
    (likeWrite s uid tid b).likes
      = if b then s.likes.filter (fun l => !(l.talent_id == tid && l.user_id == uid))
        else s.likes ++ [⟨tid, uid⟩] := by
  cases b <;> rfl

theorem storeLiked_insert (likes : List LikeRow) (tid uid : String) :
    storeLiked (likes ++ [⟨tid, uid⟩]) uid tid = true :=
  (storeLiked_iff _ _ _).mpr ⟨⟨tid, uid⟩, List.mem_append_right _ (List.mem_singleton_self _), rfl, rfl⟩

theorem storeLiked_delete (likes : List LikeRow) (tid uid : String) :
    storeLiked (likes.filter (fun l => !(l.talent_id == tid && l.user_id == uid))) uid tid
      = false := by
  cases h : storeLiked (likes.filter (fun l => !(l.talent_id == tid && l.user_id == uid))) uid tid with
  | false => rfl
  | true =>
    exfalso
    rcases (storeLiked_iff _ _ _).mp h with ⟨l, hl, hu, ht⟩
    have hp := (List.mem_filter.mp hl).2
    simp [ht, hu] at hp

theorem countLikes_insert (likes : List LikeRow) (tid uid : String) :
    countLikes (likes ++ [⟨tid, uid⟩]) tid = countLikes likes tid + 1 := by
  simp [countLikes, List.filter_append]

theorem likeKeyCount_insert (likes : List LikeRow) (tid uid : String) :
    likeKeyCount (likes ++ [⟨tid, uid⟩]) tid uid = likeKeyCount likes tid uid + 1 := by
  simp [likeKeyCount, List.filter_append]

theorem likeKeyCount_delete (likes : List LikeRow) (tid uid : String) :
    likeKeyCount (likes.filter (fun l => !(l.talent_id == tid && l.user_id == uid))) tid uid
      = 0 := by
  rw [likeKeyCount, List.length_eq_zero, List.filter_eq_nil_iff]
  intro l hl
  have hp := (List.mem_filter.mp hl).2
  intro hcontra
  simp only [Bool.not_eq_true'] at hp
  rw [hp] at hcontra
  exact absurd hcontra (by simp)

theorem likeKeyCount_le (likes : List LikeRow) (tid uid : String) :
    likeKeyCount likes tid uid ≤ countLikes likes tid := by
  induction likes with
  | nil => exact Nat.le_refl 0
  | cons l rest ih =>
    by_cases h1 : (l.talent_id == tid) = true
    · by_cases h2 : (l.user_id == uid) = true
      · simpa [likeKeyCount, countLikes, List.filter_cons, h1, h2] using
          Nat.succ_le_succ ih
      · simp only [likeKeyCount, countLikes, List.filter_cons, h1, h2] at ih ⊢
        simp only [Bool.and_false, Bool.and_true, if_false, if_true]
        calc (rest.filter (fun l => l.talent_id == tid && l.user_id == uid)).length
            ≤ (rest.filter (fun l => l.talent_id == tid)).length := ih
          _ ≤ (rest.filter (fun l => l.talent_id == tid)).length + 1 := Nat.le_succ _
    · by_cases h2 : (l.user_id == uid) = true <;>
        simpa [likeKeyCount, countLikes, List.filter_cons, h1, h2] using ih

theorem storeLiked_pos_iff (likes : List LikeRow) (tid uid : String) :
    storeLiked likes uid tid = true ↔ 0 < likeKeyCount likes tid uid := by
  rw [storeLiked_iff]
  constructor
  · rintro ⟨l, hl, hu, ht⟩
    have hm : l ∈ likes.filter (fun l => l.talent_id == tid && l.user_id == uid) :=
      List.mem_filter.mpr ⟨hl, by simp [hu, ht]⟩
    exact List.length_pos.mpr (List.ne_nil_of_mem hm)
  · intro h
    obtain ⟨l, hl⟩ := List.exists_mem_of_length_pos h
    rcases List.mem_filter.mp hl with ⟨hmem, hp⟩
    simp only [Bool.and_eq_true, beq_iff_eq] at hp
    exact ⟨l, hmem, hp.2, hp.1⟩

theorem countLikes_delete (likes : List LikeRow) (tid uid : String) :
    countLikes (likes.filter (fun l => !(l.talent_id == tid && l.user_id == uid))) tid
      = countLikes likes tid - likeKeyCount likes tid uid := by
  induction likes with
  | nil => rfl
  | cons l rest ih =>
    have hle := likeKeyCount_le rest tid uid
    simp only [countLikes, likeKeyCount] at ih hle ⊢
    cases h1 : l.talent_id == tid <;> cases h2 : l.user_id == uid <;>
      simp [List.filter_cons, h1, h2, -List.filter_filter] at ih ⊢ <;> omega

theorem contains_eq_storeLiked (likes : List LikeRow) (uid tid : String) :
    (likedIdsOf likes uid).contains tid = storeLiked likes uid tid := rfl

theorem likeWrite_likes_true (s : Store) (uid tid : String) :
    (likeWrite s uid tid true).likes
      = s.likes.filter (fun l => !(l.talent_id == tid && l.user_id == uid)) := rfl

theorem likeWrite_likes_false (s : Store) (uid tid : String) :
    (likeWrite s uid tid false).likes = s.likes ++ [⟨tid, uid⟩] := rfl

/-- C4: toggling the reaction twice for the same (item, viewer), each
toggle operating on the view re-fetched after the preceding write,
returns the aggregated view to the original `is_liked` value and the
same `likes_count` for that item — given the store's uniqueness
invariant (at most one ReactionRecord per (item, viewer) pair). -/
theorem toggle_twice_restores (s : Store) (uid tid : String) (hU : UniqueLikes s.likes) :
    lookupView
      (handleLike
        (handleLike s (fetchTalents s (some uid)).result (some uid) tid none).store
        (handleLike s (fetchTalents s (some uid)).result (some uid) tid none).view
        (some uid) tid none).view tid
      = lookupView (fetchTalents s (some uid)).result tid := by
  cases hfind : s.talents.find? (fun t => t.id == tid) with
  | none =>
    have hv0 : (fetchTalents s (some uid)).result.find? (fun a => a.base.id == tid) = none := by
      rw [fetch_find, hfind]
      rfl
    simp only [handleLike, hv0]
  | some t0 =>
    have hid : t0.id = tid := by simpa using List.find?_some hfind
    rw [lookupView_fetch s uid tid, hfind]
    obtain ⟨T0, hv0, hT0⟩ :
        ∃ T, (fetchTalents s (some uid)).result.find? (fun a => a.base.id == tid) = some T
          ∧ T.is_liked = storeLiked s.likes uid tid := by
      refine ⟨_, by rw [fetch_find, hfind]; rfl, ?_⟩
      show (likedIdsOf s.likes uid).contains t0.id = storeLiked s.likes uid tid
      rw [hid]
      rfl
    rw [handleLike_found s (fetchTalents s (some uid)).result uid tid T0 hv0]
    dsimp only
    rw [hT0]
    obtain ⟨T1, hv1, hT1⟩ :
        ∃ T, (fetchTalents (likeWrite s uid tid (storeLiked s.likes uid tid))
              (some uid)).result.find? (fun a => a.base.id == tid) = some T
          ∧ T.is_liked
              = storeLiked (likeWrite s uid tid (storeLiked s.likes uid tid)).likes uid tid := by
      refine ⟨_, by rw [fetch_find, likeWrite_talents, hfind]; rfl, ?_⟩
      show (likedIdsOf (likeWrite s uid tid (storeLiked s.likes uid tid)).likes uid).contains t0.id
          = _
      rw [hid]
      rfl
    rw [handleLike_found (likeWrite s uid tid (storeLiked s.likes uid tid))
      (fetchTalents (likeWrite s uid tid (storeLiked s.likes uid tid)) (some uid)).result
      uid tid T1 hv1]
    dsimp only
    rw [hT1, lookupView_fetch, likeWrite_talents, likeWrite_talents, hfind]
    simp only [Option.map_some', hid, contains_eq_storeLiked]
    cases hb0 : storeLiked s.likes uid tid with
    | true =>
      rw [likeWrite_likes_true, storeLiked_delete, likeWrite_likes_false,
        likeWrite_likes_true, storeLiked_insert, countLikes_insert, countLikes_delete]
      have h1 := (storeLiked_pos_iff s.likes tid uid).mp hb0
      have h2 := hU tid uid
      have h3 := likeKeyCount_le s.likes tid uid
      have harith : countLikes s.likes tid - likeKeyCount s.likes tid uid + 1
          = countLikes s.likes tid := by omega
      rw [harith]
    | false =>
      rw [likeWrite_likes_false, storeLiked_insert, likeWrite_likes_true,
        likeWrite_likes_false, storeLiked_delete, countLikes_delete, countLikes_insert,
        likeKeyCount_insert]
      have h0 : ¬ 0 < likeKeyCount s.likes tid uid := by
        intro hpos
        have h := (storeLiked_pos_iff s.likes tid uid).mpr hpos
        rw [hb0] at h
        exact Bool.false_ne_true h
      have h3 := likeKeyCount_le s.likes tid uid
      have harith : countLikes s.likes tid + 1 - (likeKeyCount s.likes tid uid + 1)
          = countLikes s.likes tid := by omega
      rw [harith]

/-- C4 witness: on the concrete store (where viewer `u9` has liked `t1`
and the uniqueness invariant holds), two toggles restore the displayed
(is_liked, likes_count) pair for `t1`. -/
theorem toggle_twice_restores_witness :
    lookupView
      (handleLike
        (handleLike exStore (fetchTalents exStore (some "u9")).result (some "u9") "t1" none).store
        (handleLike exStore (fetchTalents exStore (some "u9")).result (some "u9") "t1" none).view
        (some "u9") "t1" none).view "t1"
      = lookupView (fetchTalents exStore (some "u9")).result "t1" :=
  toggle_twice_restores exStore "u9" "t1"
    (fun _ _ => le_trans (List.length_filter_le _ _) (by decide))
